import Mathlib

/-!
# leads-su/runner: a shallow embedding of the task execution engine

The Go package `runner` (files `task.go`, `permissions_checker.go`, `runner.go`) is
translated into pure Lean functions.

* Go strings are Lean `String`s (sequences of Unicode scalar values).
* Go `error` values are their messages; a nil error is `none`.
* Go function values (the two callbacks, the realtime output handler) are tags: only
  whether they are nil matters to the engine, their bodies are outside this package.
* The host (the `runtime.GOOS` constant, the `whoami` and `groups` binaries) and the
  behaviour of the spawned child process are explicit inputs.
* What `Run` does to the outside world is recorded as a trace of effects.
-/

namespace GoRunner

/-! ## Go standard library pieces used by the package -/

/-- Go `unicode.IsSpace`: tab, line feed, vertical tab, form feed, carriage return, space,
U+0085, U+00A0 and the other code points with the Unicode White_Space property -/
def isSpace (c : Char) : Bool :=
  c.toNat = 0x09 || c.toNat = 0x0A || c.toNat = 0x0B || c.toNat = 0x0C || c.toNat = 0x0D ||
  c.toNat = 0x20 ||
  c.toNat = 0x85 || c.toNat = 0xA0 || c.toNat = 0x1680 ||
  (0x2000 ≤ c.toNat && c.toNat ≤ 0x200A) ||
  c.toNat = 0x2028 || c.toNat = 0x2029 || c.toNat = 0x202F || c.toNat = 0x205F ||
  c.toNat = 0x3000

/-- Go `strings.TrimSpace`: drop the leading and the trailing white space -/
def TrimSpace (s : String) : String :=
  ⟨((s.data.dropWhile isSpace).reverse.dropWhile isSpace).reverse⟩

/-- Go `strings.Join(elems, sep)` -/
def Join : List String → String → String
  | [], _ => ""
  | [a], _ => a
  | a :: b :: rest, sep => a ++ sep ++ Join (b :: rest) sep

/-- Whether the characters `sub` start the characters `s` -/
def startsWith : List Char → List Char → Bool
  | _, [] => true
  | [], _ :: _ => false
  | c :: s, d :: sub => c == d && startsWith s sub

/-- Substring search on character lists -/
def containsChars : List Char → List Char → Bool
  | [], sub => startsWith [] sub
  | c :: s, sub => startsWith (c :: s) sub || containsChars s sub

/-- Go `strings.Contains(s, substr)` -/
def Contains (s substr : String) : Bool :=
  containsChars s.data substr.data

/-- Go `bufio.MaxScanTokenSize`, the buffer limit of a `bufio.Scanner` made by `NewScanner` -/
def MaxScanTokenSize : Nat := 64 * 1024

/-- The length in bytes of the UTF-8 encoding of a text -/
def byteLength : List Char → Nat
  | [] => 0
  | c :: rest => c.utf8Size + byteLength rest

/-- Go `bufio.dropCR`: drop one carriage return from the end of the data -/
def dropCR (data : List Char) : List Char :=
  if data.getLast?.map Char.toNat = some 0x0D then data.dropLast else data

/-- Go `bufio.Scanner` with the split function `bufio.ScanLines` and the default buffer, over a
stream that delivers `rest` and then EOF with no read error: the texts of the successful
`Scan()` calls. `held` is the data held in the buffer for the token being read. A newline ends
the token, which is returned without its carriage return; at EOF held data is a last token.
When the buffer is full (`MaxScanTokenSize` bytes held) and no newline has come, `Scan()`
records `ErrTooLong` and returns false, and every later `Scan()` returns false. -/
def scanTexts : List Char → List Char → List String
  | held, [] =>
    if held = [] then []
    else if MaxScanTokenSize ≤ byteLength held then []
    else [⟨dropCR held⟩]
  | held, c :: rest =>
    if c.toNat = 0x0A then
      if MaxScanTokenSize ≤ byteLength held then []
      else ⟨dropCR held⟩ :: scanTexts [] rest
    else scanTexts (held ++ [c]) rest

/-! ## task.go -/

/-- Go `error`, identified with its message -/
abbrev Error := String

def StandardOutput : Nat := 1
def StandardError : Nat := 2
def SourceSystem : Nat := 1
def SourceCommand : Nat := 2

/-- A Go function value, known only by a tag; a nil function is `none` where one is stored -/
structure Func where
  tag : Nat
deriving DecidableEq, Repr

/-- The Go struct `Task` -/
structure Task where
  os : String
  canSudo : Bool
  runningAs : String
  runAs : String
  realtimeOutput : Bool
  realtimeOutputHandler : Option Func
  failOnError : Bool
  command : String
  arguments : List String
  workingDir : String
deriving DecidableEq, Repr

/-- The Go struct `TaskOptions` -/
structure TaskOptions where
  RunAs : String
  Command : String
  Arguments : List String
  WorkingDir : String
  FailOnError : Bool
deriving DecidableEq, Repr

/-- The host the package runs on: `runtime.GOOS`, and what `exec.Command("whoami").Output()`
and `exec.Command("groups", username).Output()` give (standard output, or the error) -/
structure Host where
  goos : String
  whoami : Except Error String
  groups : String → Except Error String

/-! ## permissions_checker.go -/

/-- Go `GetMyUsername` -/
def GetMyUsername (host : Host) : String × Option Error :=
  match host.whoami with
  | .error stdErr => ("", some stdErr)
  | .ok stdOut => (TrimSpace stdOut, none)

/-- Message of the error built at permissions_checker.go:33 -/
def errUserNotFound (username : String) : Error :=
  "user `" ++ username ++ "` could not be found"

/-- Message of the error built at permissions_checker.go:41 -/
def errNoSudoPrivileges (username : String) : Error :=
  "user `" ++ username ++ "` has no sudo privileges"

/-- The tail of Go `HasSudoPrivileges` (permissions_checker.go:29-41), once the user name is
settled -/
def lookupGroups (host : Host) (username : String) : Bool × Option Error :=
  match host.groups username with
  | .error _ => (false, some (errUserNotFound username))
  | .ok stdOut =>
    let output := TrimSpace stdOut
    if Contains output "sudo" then (true, none)
    else (false, some (errNoSudoPrivileges username))

/-- Go `HasSudoPrivileges` -/
def HasSudoPrivileges (host : Host) (username : String) : Bool × Option Error :=
  if (TrimSpace username).length == 0 then
    match GetMyUsername host with
    | (_, some err) => (false, some err)
    | (myUsername, none) => lookupGroups host myUsername
  else
    lookupGroups host username

/-! ## task.go, continued -/

/-- Go `NewTask` -/
def NewTask (host : Host) (command : String) : Task :=
  { os := host.goos
    canSudo := host.goos != "windows"
    runningAs := ""
    runAs := ""
    realtimeOutput := false
    realtimeOutputHandler := none
    failOnError := true
    command := command
    arguments := []
    workingDir := "" }

/-- Go `Task.WithArguments` -/
def Task.WithArguments (task : Task) (arguments : List String) : Task :=
  { task with arguments := arguments }

/-- Go `Task.WithSkipError` -/
def Task.WithSkipError (task : Task) : Task :=
  { task with failOnError := false }

/-- Go `Task.WithRealtimeOutput`; the handler argument may be the nil function -/
def Task.WithRealtimeOutput (task : Task) (handler : Option Func) : Task :=
  { task with realtimeOutput := true, realtimeOutputHandler := handler }

/-- Go `Task.WithWorkingDir` -/
def Task.WithWorkingDir (task : Task) (directory : String) : Task :=
  { task with workingDir := TrimSpace directory }

/-- Go `Task.HasWorkingDir` -/
def Task.HasWorkingDir (task : Task) : Bool :=
  TrimSpace task.workingDir != ""

/-- Go `Task.IsSameUser` -/
def Task.IsSameUser (task : Task) : Bool :=
  TrimSpace task.runningAs == TrimSpace task.runAs

/-- What a call of `Task.RunAs` leaves behind: the receiver (the method writes through the
pointer, also on a path that then fails) and the returned error. The returned pointer is the
receiver when the error is nil and nil otherwise. -/
structure RunAsResult where
  receiver : Task
  err : Option Error
deriving DecidableEq, Repr

/-- Go `Task.RunAs` -/
def Task.RunAs (host : Host) (task : Task) (username : String) : RunAsResult :=
  if !task.canSudo then
    ⟨task, some "this system does not support `sudo` privileges elevation"⟩
  else
    match GetMyUsername host with
    | (_, some err) => ⟨task, some err⟩
    | (originalUsername, none) =>
      let task := { task with runningAs := originalUsername }
      let username := if TrimSpace username == "" then task.runningAs else username
      match HasSudoPrivileges host "ccm" with
      | (_, some err) => ⟨task, some err⟩
      | (canSudo, none) =>
        if !canSudo then ⟨task, some "user `ccm` is not in sudoers group"⟩
        else ⟨{ task with runAs := username }, none⟩

/-- Go `Task.RunAsSudo` -/
def Task.RunAsSudo (host : Host) (task : Task) : RunAsResult :=
  task.RunAs host ""

/-- Go `NewTaskFromOptions` -/
def NewTaskFromOptions (host : Host) (options : TaskOptions) : Except Error Task :=
  let task : Task :=
    { os := host.goos
      canSudo := host.goos != "windows"
      runningAs := ""
      runAs := options.RunAs
      realtimeOutput := false
      realtimeOutputHandler := none
      failOnError := options.FailOnError
      command := options.Command
      arguments := options.Arguments
      workingDir := options.WorkingDir }
  if task.runAs != "" then
    match task.RunAs host task.runAs with
    | ⟨_, some err⟩ => .error err
    | ⟨runAsTask, none⟩ => .ok runAsTask
  else
    .ok task

/-! ## runner.go -/

/-- One thing `Run` does to the outside world -/
inductive Effect where
  /-- The call `logger.Errorf(scope, message)` -/
  | log (scope message : String)
  /-- The statement `go runner.onError()` -/
  | goOnError
  /-- The statement `go runner.onSuccess()` -/
  | goOnSuccess
  /-- The call `runner.task.realtimeOutputHandler(outputType, line, source)` -/
  | handler (outputType : Nat) (line : String) (source : Nat)
deriving DecidableEq, Repr

/-- A stretch of Go statements that has run: the effects in order, and the value it produced,
or `none` when it panicked (here: a call through a nil function value) -/
structure Exec (α : Type) where
  trace : List Effect
  value : Option α
deriving Repr

/-- Nothing happens, `a` is produced -/
def Exec.ret {α : Type} (a : α) : Exec α := ⟨[], some a⟩

/-- Sequencing: a panic stops the run and keeps the effects up to it -/
def Exec.andThen {α β : Type} (m : Exec α) (f : α → Exec β) : Exec β :=
  match m.value with
  | none => ⟨m.trace, none⟩
  | some a => ⟨m.trace ++ (f a).trace, (f a).value⟩

instance : Monad Exec where
  pure := Exec.ret
  bind := Exec.andThen

/-- Perform one effect -/
def emit (e : Effect) : Exec Unit := ⟨[e], some ()⟩

/-- A runtime panic -/
def panicNil {α : Type} : Exec α := ⟨[], none⟩

/-- The call `task.realtimeOutputHandler(outputType, line, source)`: a nil handler panics -/
def Task.callHandler (task : Task) (outputType : Nat) (line : String) (source : Nat) :
    Exec Unit :=
  match task.realtimeOutputHandler with
  | none => panicNil
  | some _ => emit (.handler outputType line source)

/-- The Go struct `Runner`; a callback that is not configured is nil -/
structure Runner where
  task : Task
  onError : Option Func
  onSuccess : Option Func
deriving DecidableEq, Repr

/-- The Go struct `RunnerOptions` -/
structure RunnerOptions where
  Task : Task
  OnError : Option Func
  OnSuccess : Option Func

/-- Go `NewRunner` -/
def NewRunner (options : RunnerOptions) : Runner :=
  { task := options.Task, onError := options.OnError, onSuccess := options.OnSuccess }

/-- The value `exec.Command(name, arg...)` -/
structure Command where
  name : String
  args : List String
deriving DecidableEq, Repr

/-- One successful `Scan()` of a `bufio.Scanner`: what `scanner.Err()` and `scanner.Text()`
give after it -/
structure Scanned where
  err : Option Error
  text : String
deriving DecidableEq, Repr

/-- How the operating system answers the calls `Run` makes on one command: the error of
`Output()`, of `StdoutPipe()`, of `StderrPipe()`, of `Start()`, the successful scans of the two
pipes up to the first `Scan()` that returns false, the error of `Wait()` and the exit code of
`ProcessState` -/
structure Process where
  output : Option Error
  stdoutPipe : Option Error
  stderrPipe : Option Error
  start : Option Error
  stdout : List Scanned
  stderr : List Scanned
  wait : Option Error
  exitCode : Int
deriving Repr

/-- Go `Runner.baseCommandBuilder` -/
def Runner.baseCommandBuilder (runner : Runner) : String × List String :=
  let command := "/bin/bash"
  let arguments := ["-lc"]
  if runner.task.runAs != "" then
    if !runner.task.IsSameUser then
      ("sudo", ["-HSu", runner.task.runAs, command] ++ arguments)
    else (command, arguments)
  else (command, arguments)

/-- Go `Runner.Run`, runner.go:44-59: the string joined from `executionArray`.
`fmt.Sprintf("%s %s", a, b)` is `a ++ " " ++ b` and `fmt.Sprintf("cd %s", d)` is `"cd " ++ d`. -/
def Runner.composed (runner : Runner) : String :=
  let executionArray : List String := []
  let navigationCommand := ""
  let taskCommand := runner.task.command ++ " " ++ Join runner.task.arguments " "
  let navigationCommand :=
    if runner.task.HasWorkingDir then "cd " ++ runner.task.workingDir else navigationCommand
  let executionArray :=
    if navigationCommand != "" then executionArray ++ [navigationCommand] else executionArray
  let executionArray := executionArray ++ [taskCommand]
  Join executionArray " && "

/-- Go `Runner.Run`, runner.go:58-61: the command handed to `exec.Command` -/
def Runner.command (runner : Runner) : Command :=
  let (cmd, arguments) := runner.baseCommandBuilder
  let arguments := arguments ++ [runner.composed]
  ⟨cmd, arguments⟩

/-- Go `Runner.processScannedLine` -/
def Runner.processScannedLine (runner : Runner) (scanner : Scanned) (outputType : Nat) :
    Exec (Bool × Option Error) :=
  match scanner.err with
  | some err => pure (false, some err)
  | none =>
    let line := scanner.text
    if outputType == StandardError && line != "" then do
      runner.task.callHandler outputType line SourceCommand
      pure (true, none)
    else if outputType == StandardOutput then do
      runner.task.callHandler outputType line SourceCommand
      pure (true, none)
    else
      pure (true, none)

/-- Go `Runner.handleRealtimeErrorCase`; `format` is the text before the final `%s` -/
def Runner.handleRealtimeErrorCase (runner : Runner) (format : String) (err : Error) :
    Exec (Bool × Option Error) := do
  emit (.log "runner:runner" (format ++ err))
  if runner.onError.isSome then
    emit .goOnError
  runner.task.callHandler StandardError err SourceSystem
  pure (false, some err)

/-- Decimal text of an exit code, as `%d` prints it -/
def formatInt (n : Int) : String :=
  toString n

/-- Go `Runner.handleRealtimeSuccessCase` -/
def Runner.handleRealtimeSuccessCase (runner : Runner) (exitCode : Int) :
    Exec (Bool × Option Error) := do
  let successMessage := "exit status " ++ formatInt exitCode
  runner.task.callHandler StandardOutput successMessage SourceSystem
  if runner.onSuccess.isSome then
    emit .goOnSuccess
  pure (true, none)

/-- Go `Runner.Run`, one of the two loops `for buffer.Scan() ...` (runner.go:97-105 and
107-115) over the scans still to come. `some (result, err)` is the `return result, err` inside
the loop, `none` is the loop running to its end. -/
def Runner.drain (runner : Runner) (outputType : Nat) (format : String) :
    List Scanned → Exec (Option (Bool × Option Error))
  | [] => pure none
  | scanner :: rest => do
    let (result, err) ← runner.processScannedLine scanner outputType
    let (result, err) ←
      if !result then
        match err with
        | some e => runner.handleRealtimeErrorCase format e
        | none => panicNil
      else pure (result, err)
    if err.isSome && runner.task.failOnError then
      pure (some (result, err))
    else
      runner.drain outputType format rest

/-- Go `Runner.Run`, runner.go:63-121, on the command of `Runner.command` -/
def Runner.Run (runner : Runner) (os : Command → Process) : Exec (Bool × Option Error) :=
  let command := os runner.command
  if !runner.task.realtimeOutput then
    match command.output with
    | some stdErr => do
      if runner.onError.isSome then
        emit .goOnError
      emit (.log "runner:runner" ("failed to execute command - " ++ stdErr))
      pure (false, some stdErr)
    | none => do
      if runner.onSuccess.isSome then
        emit .goOnSuccess
      pure (true, none)
  else
    match command.stdoutPipe with
    | some err => runner.handleRealtimeErrorCase "failed to create stdout pipe - " err
    | none =>
    match command.stderrPipe with
    | some err => runner.handleRealtimeErrorCase "failed to create stderr pipe - " err
    | none =>
    match command.start with
    | some err => runner.handleRealtimeErrorCase "failed to start command - " err
    | none => do
      match ← runner.drain StandardOutput "failed to process `stdout` line - " command.stdout with
      | some ret => pure ret
      | none =>
      match ← runner.drain StandardError "failed to process `stderr` line - " command.stderr with
      | some ret => pure ret
      | none =>
      match command.wait with
      | some err => runner.handleRealtimeErrorCase "command failed with following error - " err
      | none => runner.handleRealtimeSuccessCase command.exitCode

/-- Go package-level `Run` -/
def Run (task : Task) (os : Command → Process) : Exec (Bool × Option Error) :=
  (NewRunner { Task := task, OnError := none, OnSuccess := none }).Run os

/-- The successful scans of a pipe to which the child wrote `text` and that was read to EOF
with no read error: `scanner.Err()` is nil after each of them -/
def scanLines (text : String) : List Scanned :=
  (scanTexts [] text.data).map fun t => ⟨none, t⟩

/-! ## Views of `Run`, definitions in the words of the specification, sample inputs -/

/-- The lines of a text: each piece ended by a newline, without the newline, and the piece
after the last newline when it is not empty. `held` is the piece being read. -/
def splitLines : List Char → List Char → List String
  | held, [] => if held = [] then [] else [⟨held⟩]
  | held, c :: rest =>
    if c.toNat = 0x0A then ⟨held⟩ :: splitLines [] rest else splitLines (held ++ [c]) rest

/-- The list of lines the child wrote, given the text it wrote to a pipe -/
def linesWritten (text : String) : List String :=
  splitLines [] text.data

/-- The handler calls with source COMMAND as claim C6 words them, for a child that wrote
`out` to stdout and `err` to stderr: one STDOUT call per stdout line, then one STDERR call per
non-empty stderr line -/
def callsAsClaimed (out err : String) : List Effect :=
  (linesWritten out).map (fun l => .handler StandardOutput l SourceCommand) ++
    ((linesWritten err).filter fun l => l != "").map
      (fun l => .handler StandardError l SourceCommand)

/-- A line without its carriage return, as the scanner returns it -/
def withoutCR (line : String) : String :=
  ⟨dropCR line.data⟩

/-- A started child that wrote `out` to stdout and `err` to stderr, whose pipes were read to
EOF with no read error, and that exited with status 0 -/
def childWriting (out err : String) : Process :=
  { output := none, stdoutPipe := none, stderrPipe := none, start := none,
    stdout := scanLines out, stderr := scanLines err, wait := none, exitCode := 0 }

/-- A line of 70000 letters `x` -/
def longLine : String :=
  ⟨List.replicate 70000 (Char.ofNat 120)⟩

/-- The text of the three lines `s1`, `longLine` and `s3` -/
def longText : String :=
  ⟨"s1\n".data ++ List.replicate 70000 (Char.ofNat 120) ++ "\ns3\n".data⟩

/-- A Linux host where the invoking user is `alice` and the account `ccm` is in group `sudo` -/
def linuxHost : Host :=
  { goos := "linux"
    whoami := .ok "alice\n"
    groups := fun username =>
      if username == "ccm" then .ok "ccm : ccm sudo\n" else .error "exit status 1" }

/-- The task `ls` with no arguments and no working directory -/
def lsTask : Task := NewTask linuxHost "ls"

/-- The task `ls -l -a` in `/tmp`, switched to run as `bob` while `alice` is running -/
def bobTask : Task :=
  (((lsTask.WithArguments ["-l", "-a"]).WithWorkingDir "/tmp").RunAs linuxHost "bob").receiver

/-- A process for which everything succeeds and that writes nothing -/
def quietProcess : Process :=
  { output := none, stdoutPipe := none, stderrPipe := none, start := none,
    stdout := [], stderr := [], wait := none, exitCode := 0 }

/-- The composed string as claim C2 words it: the optional `cd` part, then the command and the
arguments joined by single spaces -/
def composedAsClaimed (task : Task) : String :=
  (if task.HasWorkingDir then "cd " ++ task.workingDir ++ " && " else "") ++
    Join (task.command :: task.arguments) " "

/-- The effects of `handleRealtimeErrorCase` when the handler is set -/
def errorCaseTrace (runner : Runner) (format : String) (err : Error) : List Effect :=
  [.log "runner:runner" (format ++ err)] ++
    (if runner.onError.isSome then [Effect.goOnError] else []) ++
    [.handler StandardError err SourceSystem]

/-- The last step of a streaming `Run` (runner.go:117-121) -/
def Runner.finish (runner : Runner) (command : Process) : Exec (Bool × Option Error) :=
  match command.wait with
  | some err => runner.handleRealtimeErrorCase "command failed with following error - " err
  | none => runner.handleRealtimeSuccessCase command.exitCode

/-- The two loops and the last step of a streaming `Run` (runner.go:94-121) -/
def Runner.stream (runner : Runner) (command : Process) : Exec (Bool × Option Error) :=
  (runner.drain StandardOutput "failed to process `stdout` line - " command.stdout).andThen
    fun r1 => match r1 with
      | some ret => Exec.ret ret
      | none =>
        (runner.drain StandardError "failed to process `stderr` line - " command.stderr).andThen
          fun r2 => match r2 with
            | some ret => Exec.ret ret
            | none => runner.finish command

/-- The effects of `handleRealtimeSuccessCase` when the handler is set -/
def successCaseTrace (runner : Runner) (exitCode : Int) : List Effect :=
  [.handler StandardOutput ("exit status " ++ formatInt exitCode) SourceSystem] ++
    (if runner.onSuccess.isSome then [Effect.goOnSuccess] else [])

/-- A streaming task that skips errors, with a handler -/
def skipErrorTask : Task := ((NewTask linuxHost "ls").WithRealtimeOutput (some ⟨0⟩)).WithSkipError

/-- A child whose stdout ends in an unterminated line `par` on which the pipe read failed, and
that then exits with status 0 -/
def readErrorProcess : Process :=
  { output := none, stdoutPipe := none, stderrPipe := none, start := none,
    stdout := [⟨some "read |0: input/output error", "par"⟩], stderr := [],
    wait := none, exitCode := 0 }

/-- A streaming task whose handler is the nil function -/
def nilHandlerTask : Task := (NewTask linuxHost "ls").WithRealtimeOutput none

/-- Whether an effect is a handler call with source COMMAND -/
def isCommandCall : Effect → Bool
  | .handler _ _ source => source == SourceCommand
  | _ => false

/-- The handler call made for a stdout line -/
def stdoutCall (s : Scanned) : Effect := .handler StandardOutput s.text SourceCommand

/-- The handler call made for a non-empty stderr line -/
def stderrCall (s : Scanned) : Effect := .handler StandardError s.text SourceCommand

/-- A child that writes `s1 s2 s3` (the second one empty) to stdout and `e1`, an empty line and
`e2` to stderr -/
def chattyProcess : Process :=
  { output := none, stdoutPipe := none, stderrPipe := none, start := none,
    stdout := [⟨none, "s1"⟩, ⟨none, ""⟩, ⟨none, "s3"⟩],
    stderr := [⟨none, "e1"⟩, ⟨none, ""⟩, ⟨none, "e2"⟩],
    wait := none, exitCode := 0 }

/-- One configuration step on a task -/
inductive Step where
  | withArguments (arguments : List String)
  | withSkipError
  | withRealtimeOutput (handler : Option Func)
  | withWorkingDir (directory : String)
  | runAs (username : String)
  | runAsSudo
deriving DecidableEq, Repr

/-- The task after one step. For the two target-user steps this is the receiver after the
call, whether the call failed or not. -/
def Step.apply (host : Host) (task : Task) : Step → Task
  | .withArguments arguments => task.WithArguments arguments
  | .withSkipError => task.WithSkipError
  | .withRealtimeOutput handler => task.WithRealtimeOutput handler
  | .withWorkingDir directory => task.WithWorkingDir directory
  | .runAs username => (task.RunAs host username).receiver
  | .runAsSudo => (task.RunAsSudo host).receiver

/-- The task after a sequence of steps -/
def configure (host : Host) (task : Task) (steps : List Step) : Task :=
  steps.foldl (Step.apply host) task

/-- Invariant (b) of the data model: streaming implies a non-nil handler -/
def Task.handlerSet (task : Task) : Prop :=
  task.realtimeOutput = true → task.realtimeOutputHandler.isSome = true

/-- The white-space separated fields of a text; `cur` holds the field being read, reversed -/
def splitFields : List Char → List Char → List String
  | cur, [] => if cur = [] then [] else [⟨cur.reverse⟩]
  | cur, c :: rest =>
    if isSpace c then
      if cur = [] then splitFields [] rest else ⟨cur.reverse⟩ :: splitFields [] rest
    else splitFields (c :: cur) rest

/-- The group names in the output of `groups <user>`, which prints `user : group group ...`:
the fields after the colon (all fields when there is no colon) -/
def groupNames (output : String) : List String :=
  match (splitFields [] output.data).dropWhile (fun f => f != ":") with
  | _ :: names => names
  | [] => splitFields [] output.data

/-- Membership in a group named exactly `sudo`, as claim C10 words it -/
def memberOfSudoGroup (output : String) : Prop :=
  "sudo" ∈ groupNames output

/-- A Linux host with a user `sudoku` whose groups are `sudoku` and `users` -/
def sudokuHost : Host :=
  { goos := "linux"
    whoami := .ok "sudoku\n"
    groups := fun username =>
      if username == "sudoku" then .ok "sudoku : sudoku users\n" else .error "exit status 1" }

/-! ## Command assembly (runner.go:44-61, 125-137) -/

theorem cd_ne_empty (d : String) : ("cd " ++ d != "") = true := by
  have h : "cd " ++ d ≠ "" := by
    intro h
    have hl := congrArg String.length h
    rw [String.length_append] at hl
    have h3 : "cd ".length = 3 := by decide
    rw [h3] at hl
    have h0 : "".length = 0 := by decide
    omega
  simpa using h

theorem join_cons_of_ne_nil (a : String) (l : List String) (sep : String) (h : l ≠ []) :
    Join (a :: l) sep = a ++ sep ++ Join l sep := by
  cases l with
  | nil => exact absurd rfl h
  | cons b rest => rfl

/-- The composed string, whatever the task -/
theorem composed_eq (runner : Runner) :
    runner.composed =
      (if runner.task.HasWorkingDir then "cd " ++ runner.task.workingDir ++ " && " else "") ++
        (runner.task.command ++ " " ++ Join runner.task.arguments " ") := by
  unfold Runner.composed
  by_cases h : runner.task.HasWorkingDir = true
  · simp [h, cd_ne_empty, Join, String.append_assoc]
  · simp [h, Join]

/-- C1: when `runAs` is non-empty and differs from `runningAs` after trimming both, the command
handed to `exec.Command` is `sudo` with exactly the arguments
`-HSu`, `runAs`, `/bin/bash`, `-lc`, composed string. -/
theorem sudo_command_of_other_user (runner : Runner)
    (hRunAs : runner.task.runAs ≠ "")
    (hOther : TrimSpace runner.task.runningAs ≠ TrimSpace runner.task.runAs) :
    runner.command =
      ⟨"sudo", ["-HSu", runner.task.runAs, "/bin/bash", "-lc", runner.composed]⟩ := by
  simp [Runner.command, Runner.baseCommandBuilder, Task.IsSameUser, hRunAs, hOther]

theorem sudo_command_of_other_user_witness :
    bobTask.runAs ≠ "" ∧ TrimSpace bobTask.runningAs ≠ TrimSpace bobTask.runAs ∧
      Runner.command ⟨bobTask, none, none⟩ =
        ⟨"sudo", ["-HSu", "bob", "/bin/bash", "-lc", "cd /tmp && ls -l -a"]⟩ :=
  ⟨by decide, by decide,
    (sudo_command_of_other_user ⟨bobTask, none, none⟩ (by decide) (by decide)).trans
      (by decide)⟩

/-- C2, refuted as worded: for `ls` with an empty argument list the composed string is `ls `
with a trailing space, not the command and arguments joined by single spaces (`ls`). -/
theorem composed_differs_on_empty_arguments :
    lsTask.arguments = [] ∧
      Runner.composed ⟨lsTask, none, none⟩ = "ls " ∧
      composedAsClaimed lsTask = "ls" ∧
      Runner.composed ⟨lsTask, none, none⟩ ≠ composedAsClaimed lsTask := by
  decide

/-- C2, amended: the composed string is the optional `cd <workingDir> && ` part (present exactly
when `HasWorkingDir`), then the command, one space, and the arguments joined by single spaces;
for a non-empty argument list this is the command and the arguments joined by single spaces. -/
theorem composed_shape (runner : Runner) :
    runner.composed =
        (if runner.task.HasWorkingDir then "cd " ++ runner.task.workingDir ++ " && " else "") ++
          (runner.task.command ++ " " ++ Join runner.task.arguments " ") ∧
      (runner.task.arguments ≠ [] → runner.composed = composedAsClaimed runner.task) := by
  refine ⟨composed_eq runner, fun h => ?_⟩
  rw [composed_eq, composedAsClaimed, join_cons_of_ne_nil _ _ _ h]

theorem composed_shape_witness :
    bobTask.arguments ≠ [] ∧
      Runner.composed ⟨bobTask, none, none⟩ = composedAsClaimed bobTask ∧
      Runner.composed ⟨bobTask, none, none⟩ = "cd /tmp && ls -l -a" :=
  ⟨by decide, (composed_shape ⟨bobTask, none, none⟩).2 (by decide), by decide⟩

/-- C3: when `runAs` is empty, or equals `runningAs` after trimming both, `baseCommandBuilder`
gives `/bin/bash` with the single argument `-lc`; `sudo` is neither the program nor among the
arguments. -/
theorem bash_command_of_same_user (runner : Runner)
    (h : runner.task.runAs = "" ∨
      TrimSpace runner.task.runningAs = TrimSpace runner.task.runAs) :
    runner.baseCommandBuilder = ("/bin/bash", ["-lc"]) ∧
      runner.baseCommandBuilder.1 ≠ "sudo" ∧ "sudo" ∉ runner.baseCommandBuilder.2 := by
  have hb : runner.baseCommandBuilder = ("/bin/bash", ["-lc"]) := by
    rcases h with h | h
    · simp [Runner.baseCommandBuilder, h]
    · simp [Runner.baseCommandBuilder, Task.IsSameUser, h]
  rw [hb]
  exact ⟨rfl, by decide, by decide⟩

theorem bash_command_of_same_user_witness :
    (lsTask.runAs = "" ∨ TrimSpace lsTask.runningAs = TrimSpace lsTask.runAs) ∧
      Runner.baseCommandBuilder ⟨lsTask, none, none⟩ = ("/bin/bash", ["-lc"]) :=
  ⟨Or.inl (by decide), (bash_command_of_same_user ⟨lsTask, none, none⟩ (Or.inl (by decide))).1⟩

/-! ## Streaming -/

theorem bind_eq_andThen {α β : Type} (m : Exec α) (f : α → Exec β) :
    m >>= f = m.andThen f := rfl

theorem pure_eq_ret {α : Type} (a : α) : (pure a : Exec α) = Exec.ret a := rfl

theorem callHandler_of_some {task : Task} {h : Func} (hh : task.realtimeOutputHandler = some h)
    (outputType : Nat) (line : String) (source : Nat) :
    task.callHandler outputType line source = ⟨[.handler outputType line source], some ()⟩ := by
  simp [Task.callHandler, hh, emit]

theorem handleRealtimeErrorCase_of_some {runner : Runner} {h : Func}
    (hh : runner.task.realtimeOutputHandler = some h) (format : String) (err : Error) :
    runner.handleRealtimeErrorCase format err =
      ⟨errorCaseTrace runner format err, some (false, some err)⟩ := by
  unfold Runner.handleRealtimeErrorCase errorCaseTrace
  by_cases he : runner.onError.isSome = true <;>
    simp [bind_eq_andThen, pure_eq_ret, Exec.andThen, Exec.ret, emit,
      callHandler_of_some hh, he]

theorem drain_cons_ok {runner : Runner} (outputType : Nat) (format : String)
    (s : Scanned) (rest : List Scanned) (hs : s.err = none)
    {h : Func} (hh : runner.task.realtimeOutputHandler = some h) :
    runner.drain outputType format (s :: rest) =
      ⟨(runner.processScannedLine s outputType).trace ++ (runner.drain outputType format rest).trace,
        (runner.drain outputType format rest).value⟩ := by
  rw [Runner.drain]
  simp [Runner.processScannedLine, hs]
  split_ifs <;>
    simp [bind_eq_andThen, pure_eq_ret, Exec.andThen, Exec.ret, emit,
      callHandler_of_some hh]

theorem drain_cons_err {runner : Runner} (outputType : Nat) (format : String)
    (s : Scanned) (rest : List Scanned) {e : Error} (hs : s.err = some e)
    {h : Func} (hh : runner.task.realtimeOutputHandler = some h) :
    runner.drain outputType format (s :: rest) =
      if runner.task.failOnError then
        ⟨errorCaseTrace runner format e, some (some (false, some e))⟩
      else
        ⟨errorCaseTrace runner format e ++ (runner.drain outputType format rest).trace,
          (runner.drain outputType format rest).value⟩ := by
  rw [Runner.drain]
  by_cases hf : runner.task.failOnError = true <;>
    simp [Runner.processScannedLine, hs, bind_eq_andThen, pure_eq_ret, Exec.andThen, Exec.ret,
      handleRealtimeErrorCase_of_some hh, hf]

theorem handleRealtimeErrorCase_value (runner : Runner) (format : String) (err : Error)
    (r : Bool × Option Error) (hr : (runner.handleRealtimeErrorCase format err).value = some r) :
    r = (false, some err) := by
  cases hh : runner.task.realtimeOutputHandler with
  | none =>
    unfold Runner.handleRealtimeErrorCase at hr
    by_cases he : runner.onError.isSome = true <;>
      simp [bind_eq_andThen, pure_eq_ret, Exec.andThen, Exec.ret, emit, Task.callHandler,
        panicNil, hh, he] at hr
  | some h =>
    rw [handleRealtimeErrorCase_of_some hh] at hr
    simpa using hr.symm

theorem handleRealtimeSuccessCase_value (runner : Runner) (exitCode : Int)
    (r : Bool × Option Error)
    (hr : (runner.handleRealtimeSuccessCase exitCode).value = some r) :
    r = (true, none) := by
  unfold Runner.handleRealtimeSuccessCase at hr
  cases hh : runner.task.realtimeOutputHandler <;>
    by_cases he : runner.onSuccess.isSome = true <;>
      simp [bind_eq_andThen, pure_eq_ret, Exec.andThen, Exec.ret, emit, Task.callHandler,
        panicNil, hh, he] at hr
  all_goals simpa using hr.symm

theorem drain_value (runner : Runner) (outputType : Nat) (format : String)
    (l : List Scanned) (r : Bool × Option Error)
    (hr : (runner.drain outputType format l).value = some (some r)) :
    r.1 = false ∧ r.2.isSome = true := by
  induction l with
  | nil => simp [Runner.drain, pure_eq_ret, Exec.ret] at hr
  | cons s rest ih =>
    cases hh : runner.task.realtimeOutputHandler with
    | some h =>
      cases hs : s.err with
      | none =>
        rw [drain_cons_ok _ _ _ _ hs hh] at hr
        exact ih hr
      | some e =>
        rw [drain_cons_err _ _ _ _ hs hh] at hr
        by_cases hf : runner.task.failOnError = true
        · simp [hf] at hr
          simp [← hr]
        · simp [hf] at hr
          exact ih hr
    | none =>
      rw [Runner.drain] at hr
      cases hs : s.err with
      | none =>
        simp [Runner.processScannedLine, hs] at hr
        split_ifs at hr <;>
          simp [bind_eq_andThen, pure_eq_ret, Exec.andThen, Exec.ret, emit, Task.callHandler,
            panicNil, hh] at hr
        all_goals exact ih hr
      | some e =>
        simp [Runner.processScannedLine, hs, bind_eq_andThen, pure_eq_ret, Exec.andThen, Exec.ret,
          Runner.handleRealtimeErrorCase, Task.callHandler, panicNil, hh, emit] at hr
        split_ifs at hr

theorem drain_returns {runner : Runner} {h : Func}
    (hh : runner.task.realtimeOutputHandler = some h) (outputType : Nat) (format : String)
    (l : List Scanned) : ∃ v, (runner.drain outputType format l).value = some v := by
  induction l with
  | nil => exact ⟨none, rfl⟩
  | cons s rest ih =>
    cases hs : s.err with
    | none => rw [drain_cons_ok _ _ _ _ hs hh]; exact ih
    | some e =>
      rw [drain_cons_err _ _ _ _ hs hh]
      by_cases hf : runner.task.failOnError = true
      · simp [hf]
      · simpa [hf] using ih

theorem run_buffered (runner : Runner) (os : Command → Process)
    (hb : runner.task.realtimeOutput = false) :
    runner.Run os =
      match (os runner.command).output with
      | some stdErr =>
        ⟨(if runner.onError.isSome then [Effect.goOnError] else []) ++
          [.log "runner:runner" ("failed to execute command - " ++ stdErr)],
          some (false, some stdErr)⟩
      | none => ⟨if runner.onSuccess.isSome then [Effect.goOnSuccess] else [], some (true, none)⟩ := by
  unfold Runner.Run
  simp only [hb]
  cases (os runner.command).output with
  | none =>
    by_cases he : runner.onSuccess.isSome = true <;>
      simp [bind_eq_andThen, pure_eq_ret, Exec.andThen, Exec.ret, emit, he]
  | some e =>
    by_cases he : runner.onError.isSome = true <;>
      simp [bind_eq_andThen, pure_eq_ret, Exec.andThen, Exec.ret, emit, he]

theorem run_streaming (runner : Runner) (os : Command → Process)
    (hb : runner.task.realtimeOutput = true) :
    runner.Run os =
      match (os runner.command).stdoutPipe with
      | some err => runner.handleRealtimeErrorCase "failed to create stdout pipe - " err
      | none =>
      match (os runner.command).stderrPipe with
      | some err => runner.handleRealtimeErrorCase "failed to create stderr pipe - " err
      | none =>
      match (os runner.command).start with
      | some err => runner.handleRealtimeErrorCase "failed to start command - " err
      | none => runner.stream (os runner.command) := by
  unfold Runner.Run Runner.stream Runner.finish
  simp only [hb]
  rfl

theorem andThen_value_some {α β : Type} (m : Exec α) (f : α → Exec β) (b : β)
    (h : (m.andThen f).value = some b) : ∃ a, m.value = some a ∧ (f a).value = some b := by
  unfold Exec.andThen at h
  cases hm : m.value with
  | none => simp [hm] at h
  | some a => exact ⟨a, rfl, by simpa [hm] using h⟩

theorem andThen_of_value {α β : Type} (m : Exec α) (f : α → Exec β) (a : α)
    (h : m.value = some a) : m.andThen f = ⟨m.trace ++ (f a).trace, (f a).value⟩ := by
  simp [Exec.andThen, h]

theorem finish_value (runner : Runner) (command : Process) (r : Bool × Option Error)
    (hr : (runner.finish command).value = some r) : (r.1 = true ↔ r.2 = none) := by
  unfold Runner.finish at hr
  cases hw : command.wait with
  | none =>
    rw [hw] at hr
    rw [handleRealtimeSuccessCase_value _ _ _ hr]
    simp
  | some e =>
    rw [hw] at hr
    rw [handleRealtimeErrorCase_value _ _ _ _ hr]
    simp

theorem stream_value (runner : Runner) (command : Process) (r : Bool × Option Error)
    (hr : (runner.stream command).value = some r) : (r.1 = true ↔ r.2 = none) := by
  unfold Runner.stream at hr
  obtain ⟨r1, h1, hr⟩ := andThen_value_some _ _ _ hr
  cases r1 with
  | some ret =>
    simp [Exec.ret] at hr
    subst hr
    have := drain_value _ _ _ _ _ h1
    cases hret : ret.2 <;> simp_all
  | none =>
    simp only at hr
    obtain ⟨r2, h2, hr⟩ := andThen_value_some _ _ _ hr
    cases r2 with
    | some ret =>
      simp [Exec.ret] at hr
      subst hr
      have := drain_value _ _ _ _ _ h2
      cases hret : ret.2 <;> simp_all
    | none => exact finish_value _ _ _ hr

theorem stream_returns {runner : Runner} {h : Func}
    (hh : runner.task.realtimeOutputHandler = some h) (command : Process) :
    ∃ r, (runner.stream command).value = some r := by
  unfold Runner.stream
  obtain ⟨r1, h1⟩ := drain_returns hh StandardOutput "failed to process `stdout` line - "
    command.stdout
  obtain ⟨r2, h2⟩ := drain_returns hh StandardError "failed to process `stderr` line - "
    command.stderr
  rw [andThen_of_value _ _ _ h1]
  cases r1 with
  | some ret => exact ⟨ret, rfl⟩
  | none =>
    simp only
    rw [andThen_of_value _ _ _ h2]
    cases r2 with
    | some ret => exact ⟨ret, rfl⟩
    | none =>
      simp only [Runner.finish]
      cases command.wait with
      | some e => exact ⟨(false, some e), by simp only [handleRealtimeErrorCase_of_some hh]⟩
      | none =>
        refine ⟨(true, none), ?_⟩
        simp only
        unfold Runner.handleRealtimeSuccessCase
        by_cases he : runner.onSuccess.isSome = true <;>
          simp [bind_eq_andThen, pure_eq_ret, Exec.andThen, Exec.ret, emit,
            callHandler_of_some hh, he]

/-- C5: whenever `Run` returns, in buffered and in streaming mode, success is true exactly when
the error is nil (so a non-nil error always comes with success = false); and `Run` does
return, for every behaviour of the child process, on every task that is buffered or has a
handler. -/
theorem run_success_iff_nil_error (runner : Runner) (os : Command → Process) :
    (∀ success err, (runner.Run os).value = some (success, err) →
        (success = true ↔ err = none)) ∧
      ((runner.task.realtimeOutput = true → runner.task.realtimeOutputHandler.isSome = true) →
        ∃ success err, (runner.Run os).value = some (success, err)) := by
  constructor
  · intro success err hr
    cases hb : runner.task.realtimeOutput with
    | false =>
      rw [run_buffered _ _ hb] at hr
      cases ho : (os runner.command).output <;> simp [ho] at hr <;> simp [← hr.1, ← hr.2]
    | true =>
      rw [run_streaming _ _ hb] at hr
      cases h1 : (os runner.command).stdoutPipe with
      | some e => simp only [h1] at hr; simpa using congrArg (fun r => (r.1 = true ↔ r.2 = none)) (handleRealtimeErrorCase_value _ _ _ _ hr)
      | none =>
      cases h2 : (os runner.command).stderrPipe with
      | some e => simp only [h1, h2] at hr; simpa using congrArg (fun r => (r.1 = true ↔ r.2 = none)) (handleRealtimeErrorCase_value _ _ _ _ hr)
      | none =>
      cases h3 : (os runner.command).start with
      | some e => simp only [h1, h2, h3] at hr; simpa using congrArg (fun r => (r.1 = true ↔ r.2 = none)) (handleRealtimeErrorCase_value _ _ _ _ hr)
      | none =>
        simp only [h1, h2, h3] at hr
        exact stream_value _ _ _ hr
  · intro hH
    cases hb : runner.task.realtimeOutput with
    | false =>
      rw [run_buffered _ _ hb]
      cases (os runner.command).output <;> simp
    | true =>
      obtain ⟨h, hh⟩ := Option.isSome_iff_exists.mp (hH hb)
      rw [run_streaming _ _ hb]
      have he : ∀ format e, ∃ success err,
          (runner.handleRealtimeErrorCase format e).value = some (success, err) := by
        intro format e
        rw [handleRealtimeErrorCase_of_some hh]
        exact ⟨_, _, rfl⟩
      cases (os runner.command).stdoutPipe with
      | some e => exact he _ e
      | none =>
      cases (os runner.command).stderrPipe with
      | some e => exact he _ e
      | none =>
      cases (os runner.command).start with
      | some e => exact he _ e
      | none =>
        obtain ⟨r, hr⟩ := stream_returns hh (os runner.command)
        exact ⟨r.1, r.2, hr⟩

theorem run_success_iff_nil_error_witness :
    (skipErrorTask.realtimeOutput = true →
        skipErrorTask.realtimeOutputHandler.isSome = true) ∧
      ∃ success err,
        (Runner.Run ⟨skipErrorTask, none, none⟩ fun _ => readErrorProcess).value =
          some (success, err) :=
  ⟨by decide,
    (run_success_iff_nil_error ⟨skipErrorTask, none, none⟩ fun _ => readErrorProcess).2
      (by decide)⟩

theorem handleRealtimeSuccessCase_of_some {runner : Runner} {h : Func}
    (hh : runner.task.realtimeOutputHandler = some h) (exitCode : Int) :
    runner.handleRealtimeSuccessCase exitCode =
      ⟨successCaseTrace runner exitCode, some (true, none)⟩ := by
  unfold Runner.handleRealtimeSuccessCase successCaseTrace
  by_cases he : runner.onSuccess.isSome = true <;>
    simp [bind_eq_andThen, pure_eq_ret, Exec.andThen, Exec.ret, emit,
      callHandler_of_some hh, he]

theorem errorCaseTrace_counts (runner : Runner) (format : String) (err : Error)
    (hE : runner.onError.isSome = true) :
    (errorCaseTrace runner format err).count .goOnError = 1 ∧
      (errorCaseTrace runner format err).count .goOnSuccess = 0 := by
  simp [errorCaseTrace, hE, List.count_cons]

theorem successCaseTrace_counts (runner : Runner) (exitCode : Int)
    (hS : runner.onSuccess.isSome = true) :
    (successCaseTrace runner exitCode).count .goOnError = 0 ∧
      (successCaseTrace runner exitCode).count .goOnSuccess = 1 := by
  simp [successCaseTrace, hS, List.count_cons]

theorem processScannedLine_counts (runner : Runner) (s : Scanned) (outputType : Nat)
    {h : Func} (hh : runner.task.realtimeOutputHandler = some h) :
    (runner.processScannedLine s outputType).trace.count .goOnError = 0 ∧
      (runner.processScannedLine s outputType).trace.count .goOnSuccess = 0 := by
  unfold Runner.processScannedLine
  cases s.err with
  | some e => simp [pure_eq_ret, Exec.ret]
  | none =>
    simp only
    split_ifs <;>
      simp [bind_eq_andThen, pure_eq_ret, Exec.andThen, Exec.ret, emit,
        callHandler_of_some hh, List.count_cons]

/-- Callback dispatches of one drain loop, handler and `onError` set -/
theorem drain_counts {runner : Runner} {h : Func}
    (hh : runner.task.realtimeOutputHandler = some h) (hE : runner.onError.isSome = true)
    (outputType : Nat) (format : String) (l : List Scanned) :
    (runner.drain outputType format l).trace.count .goOnSuccess = 0 ∧
      ((runner.drain outputType format l).value = some none →
        (runner.task.failOnError = true ∨ ∀ s ∈ l, s.err = none) →
          (runner.drain outputType format l).trace.count .goOnError = 0) ∧
      (∀ r, (runner.drain outputType format l).value = some (some r) →
        (runner.drain outputType format l).trace.count .goOnError = 1 ∧
          runner.task.failOnError = true) := by
  induction l with
  | nil => simp [Runner.drain, pure_eq_ret, Exec.ret]
  | cons s rest ih =>
    obtain ⟨ihS, ihN, ihR⟩ := ih
    cases hs : s.err with
    | none =>
      rw [drain_cons_ok _ _ _ _ hs hh]
      obtain ⟨pE, pS⟩ := processScannedLine_counts runner s outputType hh
      refine ⟨by simp [List.count_append, pS, ihS], ?_, ?_⟩
      · intro hv hc
        have hc2 : runner.task.failOnError = true ∨ ∀ s ∈ rest, s.err = none := by
          rcases hc with hc | hc
          · exact Or.inl hc
          · exact Or.inr (fun x hx => hc x (List.mem_cons_of_mem _ hx))
        simp [List.count_append, pE, ihN hv hc2]
      · intro r hv
        have := ihR r hv
        simp [List.count_append, pE, this.1, this.2]
    | some e =>
      rw [drain_cons_err _ _ _ _ hs hh]
      obtain ⟨eE, eS⟩ := errorCaseTrace_counts runner format e hE
      by_cases hf : runner.task.failOnError = true
      · simp [hf, eE, eS]
      · simp only [hf, if_false]
        refine ⟨by simp [List.count_append, eS, ihS], ?_, ?_⟩
        · intro _ hc
          rcases hc with hc | hc
          · exact absurd hc (by decide)
          · have := hc s (List.mem_cons_self _ _)
            rw [hs] at this
            cases this
        · intro r hv
          exact absurd (ihR r hv).2 hf

theorem finish_counts {runner : Runner} {h : Func}
    (hh : runner.task.realtimeOutputHandler = some h) (hE : runner.onError.isSome = true)
    (hS : runner.onSuccess.isSome = true) (command : Process) :
    (runner.finish command).trace.count .goOnError +
        (runner.finish command).trace.count .goOnSuccess = 1 ∧
      (runner.finish command).trace.count .goOnSuccess ≤ 1 := by
  unfold Runner.finish
  cases command.wait with
  | some e =>
    simp only [handleRealtimeErrorCase_of_some hh]
    obtain ⟨a, b⟩ := errorCaseTrace_counts runner "command failed with following error - " e hE
    omega
  | none =>
    simp only [handleRealtimeSuccessCase_of_some hh]
    obtain ⟨a, b⟩ := successCaseTrace_counts runner command.exitCode hS
    omega

theorem stream_counts {runner : Runner} {h : Func}
    (hh : runner.task.realtimeOutputHandler = some h) (hE : runner.onError.isSome = true)
    (hS : runner.onSuccess.isSome = true) (command : Process) :
    1 ≤ (runner.stream command).trace.count .goOnError +
        (runner.stream command).trace.count .goOnSuccess ∧
      (runner.stream command).trace.count .goOnSuccess ≤ 1 ∧
      ((runner.task.failOnError = true ∨ ∀ s ∈ command.stdout ++ command.stderr, s.err = none) →
        (runner.stream command).trace.count .goOnError +
          (runner.stream command).trace.count .goOnSuccess = 1) := by
  unfold Runner.stream
  obtain ⟨r1, h1⟩ := drain_returns hh StandardOutput "failed to process `stdout` line - "
    command.stdout
  obtain ⟨r2, h2⟩ := drain_returns hh StandardError "failed to process `stderr` line - "
    command.stderr
  obtain ⟨s1, n1, e1⟩ := drain_counts hh hE StandardOutput "failed to process `stdout` line - "
    command.stdout
  obtain ⟨s2, n2, e2⟩ := drain_counts hh hE StandardError "failed to process `stderr` line - "
    command.stderr
  obtain ⟨f1, f2⟩ := finish_counts hh hE hS command
  rw [andThen_of_value _ _ _ h1]
  cases r1 with
  | some ret =>
    have := (e1 ret h1).1
    simp only [Exec.ret, List.append_nil]
    refine ⟨by omega, by omega, fun _ => by omega⟩
  | none =>
    simp only
    rw [andThen_of_value _ _ _ h2]
    cases r2 with
    | some ret =>
      have := (e2 ret h2).1
      simp only [Exec.ret, List.append_nil, List.count_append]
      refine ⟨by omega, by omega, fun hc => ?_⟩
      have hc1 : runner.task.failOnError = true ∨ ∀ s ∈ command.stdout, s.err = none := by
        rcases hc with hc | hc
        · exact Or.inl hc
        · exact Or.inr (fun x hx => hc x (List.mem_append_left _ hx))
      have := n1 h1 hc1
      omega
    | none =>
      simp only [List.count_append]
      refine ⟨by omega, by omega, fun hc => ?_⟩
      have hc1 : runner.task.failOnError = true ∨ ∀ s ∈ command.stdout, s.err = none := by
        rcases hc with hc | hc
        · exact Or.inl hc
        · exact Or.inr (fun x hx => hc x (List.mem_append_left _ hx))
      have hc2 : runner.task.failOnError = true ∨ ∀ s ∈ command.stderr, s.err = none := by
        rcases hc with hc | hc
        · exact Or.inl hc
        · exact Or.inr (fun x hx => hc x (List.mem_append_right _ hx))
      have := n1 h1 hc1
      have := n2 h2 hc2
      omega

/-- C4, refuted as worded. With `failOnError` false, a scanned line with a read error
dispatches `onError` and the Run goes on to dispatch `onSuccess` as well; and with a nil
handler a streaming Run of a quiet child panics before either callback is dispatched. -/
theorem callbacks_not_exclusive :
    ((Runner.Run ⟨skipErrorTask, some ⟨1⟩, some ⟨2⟩⟩ fun _ => readErrorProcess).trace.count
          .goOnError = 1 ∧
        (Runner.Run ⟨skipErrorTask, some ⟨1⟩, some ⟨2⟩⟩ fun _ => readErrorProcess).trace.count
          .goOnSuccess = 1 ∧
        (Runner.Run ⟨skipErrorTask, some ⟨1⟩, some ⟨2⟩⟩ fun _ => readErrorProcess).value =
          some (true, none)) ∧
      ((Runner.Run ⟨nilHandlerTask, some ⟨1⟩, some ⟨2⟩⟩ fun _ => quietProcess).trace = [] ∧
        (Runner.Run ⟨nilHandlerTask, some ⟨1⟩, some ⟨2⟩⟩ fun _ => quietProcess).value = none) := by
  decide

/-- C4, amended. For a Run with both callbacks configured and, in streaming mode, a non-nil
handler: at least one callback is dispatched, `onSuccess` at most once, and exactly one
callback is dispatched exactly once when the Run is buffered, or `failOnError` is true, or no
scanned line reports a read error. -/
theorem callbacks_dispatched (runner : Runner) (os : Command → Process)
    (hE : runner.onError.isSome = true) (hS : runner.onSuccess.isSome = true)
    (hH : runner.task.realtimeOutput = true → runner.task.realtimeOutputHandler.isSome = true) :
    1 ≤ (runner.Run os).trace.count .goOnError + (runner.Run os).trace.count .goOnSuccess ∧
      (runner.Run os).trace.count .goOnSuccess ≤ 1 ∧
      ((runner.task.realtimeOutput = false ∨ runner.task.failOnError = true ∨
          ∀ s ∈ (os runner.command).stdout ++ (os runner.command).stderr, s.err = none) →
        (runner.Run os).trace.count .goOnError + (runner.Run os).trace.count .goOnSuccess = 1) := by
  cases hb : runner.task.realtimeOutput with
  | false =>
    rw [run_buffered _ _ hb]
    cases (os runner.command).output <;> simp [hE, hS, List.count_cons]
  | true =>
    obtain ⟨h, hh⟩ := Option.isSome_iff_exists.mp (hH hb)
    have he : ∀ format e,
        1 ≤ (runner.handleRealtimeErrorCase format e).trace.count .goOnError +
            (runner.handleRealtimeErrorCase format e).trace.count .goOnSuccess ∧
          (runner.handleRealtimeErrorCase format e).trace.count .goOnSuccess ≤ 1 ∧
          ((false = false ∨ runner.task.failOnError = true ∨
              ∀ s ∈ (os runner.command).stdout ++ (os runner.command).stderr, s.err = none) →
            (runner.handleRealtimeErrorCase format e).trace.count .goOnError +
              (runner.handleRealtimeErrorCase format e).trace.count .goOnSuccess = 1) := by
      intro format e
      rw [handleRealtimeErrorCase_of_some hh]
      obtain ⟨a, b⟩ := errorCaseTrace_counts runner format e hE
      simp only
      refine ⟨by omega, by omega, fun _ => by omega⟩
    rw [run_streaming _ _ hb]
    cases (os runner.command).stdoutPipe with
    | some e => obtain ⟨a, b, c⟩ := he "failed to create stdout pipe - " e; exact ⟨a, b, fun _ => c (Or.inl rfl)⟩
    | none =>
    cases (os runner.command).stderrPipe with
    | some e => obtain ⟨a, b, c⟩ := he "failed to create stderr pipe - " e; exact ⟨a, b, fun _ => c (Or.inl rfl)⟩
    | none =>
    cases (os runner.command).start with
    | some e => obtain ⟨a, b, c⟩ := he "failed to start command - " e; exact ⟨a, b, fun _ => c (Or.inl rfl)⟩
    | none =>
      obtain ⟨a, b, c⟩ := stream_counts hh hE hS (os runner.command)
      refine ⟨a, b, fun hc => c ?_⟩
      rcases hc with hc | hc | hc
      · cases hc
      · exact Or.inl hc
      · exact Or.inr hc

theorem callbacks_dispatched_witness :
    (some (⟨1⟩ : Func)).isSome = true ∧ (some (⟨2⟩ : Func)).isSome = true ∧
      (skipErrorTask.realtimeOutput = true →
        skipErrorTask.realtimeOutputHandler.isSome = true) ∧
      (Runner.Run ⟨skipErrorTask, some ⟨1⟩, some ⟨2⟩⟩ fun _ => chattyProcess).trace.count
          .goOnError +
        (Runner.Run ⟨skipErrorTask, some ⟨1⟩, some ⟨2⟩⟩ fun _ => chattyProcess).trace.count
          .goOnSuccess = 1 :=
  ⟨rfl, rfl, by decide,
    (callbacks_dispatched ⟨skipErrorTask, some ⟨1⟩, some ⟨2⟩⟩ (fun _ => chattyProcess)
      rfl rfl (by decide)).2.2 (Or.inr (Or.inr (by decide)))⟩

theorem processScannedLine_stdout {runner : Runner} {h : Func}
    (hh : runner.task.realtimeOutputHandler = some h) (s : Scanned) (hs : s.err = none) :
    runner.processScannedLine s StandardOutput = ⟨[stdoutCall s], some (true, none)⟩ := by
  simp [Runner.processScannedLine, hs, StandardOutput, StandardError, stdoutCall,
    bind_eq_andThen, pure_eq_ret, Exec.andThen, Exec.ret, callHandler_of_some hh]

theorem processScannedLine_stderr {runner : Runner} {h : Func}
    (hh : runner.task.realtimeOutputHandler = some h) (s : Scanned) (hs : s.err = none) :
    runner.processScannedLine s StandardError =
      ⟨if s.text != "" then [stderrCall s] else [], some (true, none)⟩ := by
  by_cases ht : s.text = "" <;>
    simp [Runner.processScannedLine, hs, StandardOutput, StandardError, stderrCall,
      bind_eq_andThen, pure_eq_ret, Exec.andThen, Exec.ret, callHandler_of_some hh, ht]

theorem drain_stdout_clean {runner : Runner} {h : Func}
    (hh : runner.task.realtimeOutputHandler = some h) (format : String) (l : List Scanned)
    (hl : ∀ s ∈ l, s.err = none) :
    runner.drain StandardOutput format l = ⟨l.map stdoutCall, some none⟩ := by
  induction l with
  | nil => rfl
  | cons s rest ih =>
    have hs := hl s (List.mem_cons_self _ _)
    rw [drain_cons_ok _ _ _ _ hs hh, processScannedLine_stdout hh s hs,
      ih (fun x hx => hl x (List.mem_cons_of_mem _ hx))]
    simp

theorem drain_stderr_clean {runner : Runner} {h : Func}
    (hh : runner.task.realtimeOutputHandler = some h) (format : String) (l : List Scanned)
    (hl : ∀ s ∈ l, s.err = none) :
    runner.drain StandardError format l =
      ⟨(l.filter fun s => s.text != "").map stderrCall, some none⟩ := by
  induction l with
  | nil => rfl
  | cons s rest ih =>
    have hs := hl s (List.mem_cons_self _ _)
    rw [drain_cons_ok _ _ _ _ hs hh, processScannedLine_stderr hh s hs,
      ih (fun x hx => hl x (List.mem_cons_of_mem _ hx))]
    by_cases ht : s.text = "" <;> simp [List.filter_cons, ht]

theorem finish_no_command_call {runner : Runner} {h : Func}
    (hh : runner.task.realtimeOutputHandler = some h) (command : Process) :
    (runner.finish command).trace.filter isCommandCall = [] := by
  unfold Runner.finish
  cases command.wait with
  | some e =>
    simp only [handleRealtimeErrorCase_of_some hh, errorCaseTrace]
    by_cases he : runner.onError.isSome = true <;>
      simp [he, isCommandCall, SourceSystem, SourceCommand]
  | none =>
    simp only [handleRealtimeSuccessCase_of_some hh, successCaseTrace]
    by_cases he : runner.onSuccess.isSome = true <;>
      simp [he, isCommandCall, SourceSystem, SourceCommand]

/-- The COMMAND-source handler calls of a streaming Run in terms of the scans: the stdout
scans in order, then the stderr scans with a non-empty text in order -/
theorem command_calls_of_scans (runner : Runner) (os : Command → Process)
    (hb : runner.task.realtimeOutput = true)
    (hH : runner.task.realtimeOutputHandler.isSome = true)
    (hOut : (os runner.command).stdoutPipe = none)
    (hErr : (os runner.command).stderrPipe = none)
    (hStart : (os runner.command).start = none)
    (hClean : ∀ s ∈ (os runner.command).stdout ++ (os runner.command).stderr, s.err = none) :
    (runner.Run os).trace.filter isCommandCall =
      (os runner.command).stdout.map stdoutCall ++
        ((os runner.command).stderr.filter fun s => s.text != "").map stderrCall := by
  obtain ⟨h, hh⟩ := Option.isSome_iff_exists.mp hH
  rw [run_streaming _ _ hb]
  simp only [hOut, hErr, hStart]
  unfold Runner.stream
  rw [drain_stdout_clean hh _ _ (fun x hx => hClean x (List.mem_append_left _ hx)),
    drain_stderr_clean hh _ _ (fun x hx => hClean x (List.mem_append_right _ hx))]
  simp only [Exec.andThen, List.filter_append, finish_no_command_call hh, List.append_nil]
  congr 1
  · rw [List.filter_eq_self]
    intro a ha
    obtain ⟨s, -, rfl⟩ := List.mem_map.mp ha
    simp [stdoutCall, isCommandCall]
  · rw [List.filter_eq_self]
    intro a ha
    obtain ⟨s, -, rfl⟩ := List.mem_map.mp ha
    simp [stderrCall, isCommandCall]

theorem scanLines_clean (text : String) : ∀ s ∈ scanLines text, s.err = none := by
  intro s hs
  obtain ⟨t, -, rfl⟩ := List.mem_map.mp hs
  rfl

/-- The scanner returns the lines of the text up to the first one that fills the buffer, each
without its carriage return -/
theorem scanTexts_eq (rest held : List Char) :
    scanTexts held rest =
      ((splitLines held rest).takeWhile fun l =>
        decide (byteLength l.data < MaxScanTokenSize)).map withoutCR := by
  induction rest generalizing held with
  | nil =>
    by_cases hh : held = []
    · simp [scanTexts, splitLines, hh]
    · by_cases hf : MaxScanTokenSize ≤ byteLength held
      · simp [scanTexts, splitLines, hh, hf, List.takeWhile_cons, Nat.not_lt.mpr hf]
      · simp [scanTexts, splitLines, hh, hf, List.takeWhile_cons, Nat.lt_of_not_le hf,
          withoutCR]
  | cons c rest ih =>
    by_cases hc : c.toNat = 0x0A
    · by_cases hf : MaxScanTokenSize ≤ byteLength held
      · simp [scanTexts, splitLines, hc, hf, List.takeWhile_cons, Nat.not_lt.mpr hf]
      · simp [scanTexts, splitLines, hc, hf, List.takeWhile_cons, Nat.lt_of_not_le hf,
          withoutCR, ih]
    · simp [scanTexts, splitLines, hc, ih]

theorem scanLines_of_fit (text : String)
    (hFit : ∀ l ∈ linesWritten text, byteLength l.data < MaxScanTokenSize) :
    scanLines text = (linesWritten text).map fun l => ⟨none, withoutCR l⟩ := by
  unfold scanLines
  rw [scanTexts_eq]
  have ht : ((splitLines [] text.data).takeWhile fun l =>
      decide (byteLength l.data < MaxScanTokenSize)) = splitLines [] text.data := by
    rw [List.takeWhile_eq_self_iff]
    intro l hl
    simpa using hFit l hl
  rw [ht, List.map_map]
  rfl

theorem splitLines_append (seg held rest : List Char) (hs : ∀ c ∈ seg, c.toNat ≠ 0x0A) :
    splitLines held (seg ++ rest) = splitLines (held ++ seg) rest := by
  induction seg generalizing held with
  | nil => simp
  | cons c seg ih =>
    have hc := hs c (List.mem_cons_self _ _)
    rw [List.cons_append]
    simp only [splitLines, hc, if_false]
    rw [ih _ (fun x hx => hs x (List.mem_cons_of_mem _ hx))]
    simp

theorem splitLines_line (seg held rest : List Char) (hs : ∀ c ∈ seg, c.toNat ≠ 0x0A) :
    splitLines held (seg ++ Char.ofNat 10 :: rest) =
      ⟨held ++ seg⟩ :: splitLines [] rest := by
  rw [splitLines_append _ _ _ hs]
  have hn : (Char.ofNat 10).toNat = 0x0A := by decide
  simp only [splitLines, hn, if_true]

theorem byteLength_replicate (n : Nat) (c : Char) :
    byteLength (List.replicate n c) = n * c.utf8Size := by
  induction n with
  | zero => simp [byteLength]
  | succ n ih => rw [List.replicate_succ, byteLength, ih, Nat.succ_mul, Nat.add_comm]

theorem mem_replicate_x (n : Nat) : ∀ c ∈ List.replicate n (Char.ofNat 120), c.toNat ≠ 0x0A := by
  intro c hc
  rw [List.eq_of_mem_replicate hc]
  decide

/-- The lines of the text `s1`, newline, `n` letters `x`, newline, `s3`, newline -/
theorem splitLines_long (n : Nat) :
    splitLines [] ("s1\n".data ++ List.replicate n (Char.ofNat 120) ++ "\ns3\n".data) =
      ["s1", ⟨List.replicate n (Char.ofNat 120)⟩, "s3"] := by
  have e : "s1\n".data ++ List.replicate n (Char.ofNat 120) ++ "\ns3\n".data =
      "s1".data ++ Char.ofNat 10 ::
        (List.replicate n (Char.ofNat 120) ++ Char.ofNat 10 ::
          ("s3".data ++ Char.ofNat 10 :: [])) := by
    have e1 : "s1\n".data = "s1".data ++ [Char.ofNat 10] := by decide
    have e2 : "\ns3\n".data = Char.ofNat 10 :: ("s3".data ++ [Char.ofNat 10]) := by decide
    rw [e1, e2]
    simp only [List.append_assoc, List.singleton_append, List.cons_append, List.nil_append]
  rw [e, splitLines_line _ _ _ (by decide), splitLines_line _ _ _ (mem_replicate_x n),
    splitLines_line _ _ _ (by decide)]
  rfl

/-- A line of `MaxScanTokenSize` bytes or more ends the scan: only `s1` is returned -/
theorem scanTexts_long (n : Nat) (hn : MaxScanTokenSize ≤ n) :
    scanTexts [] ("s1\n".data ++ List.replicate n (Char.ofNat 120) ++ "\ns3\n".data) =
      ["s1"] := by
  rw [scanTexts_eq, splitLines_long]
  have h1 : byteLength ("s1" : String).data < MaxScanTokenSize := by decide
  have h2 : ¬ byteLength (List.replicate n (Char.ofNat 120)) < MaxScanTokenSize := by
    rw [byteLength_replicate]
    have hx : (Char.ofNat 120).utf8Size = 1 := by decide
    rw [hx]
    omega
  rw [List.takeWhile_cons, if_pos (by simpa using h1), List.takeWhile_cons,
    if_neg (by simpa using h2)]
  decide

/-- C6, refuted as worded, on three started children read with no read error. With a nil
handler no line is delivered. With the lines `s1`, a line of 70000 bytes and `s3` written to
stdout, only `s1` is delivered: the scanner stops at the line that fills its 64 KiB buffer. A
line written with a carriage return before its newline is delivered without it. -/
theorem delivered_lines_differ_from_written :
    ((Runner.Run ⟨nilHandlerTask, none, none⟩ fun _ => childWriting "s1\n" "").trace.filter
          isCommandCall = [] ∧
        callsAsClaimed "s1\n" "" = [.handler 1 "s1" 2]) ∧
      ((Runner.Run ⟨skipErrorTask, none, none⟩ fun _ => childWriting longText "").trace.filter
          isCommandCall = [.handler 1 "s1" 2] ∧
        callsAsClaimed longText "" =
          [.handler 1 "s1" 2, .handler 1 longLine 2, .handler 1 "s3" 2]) ∧
      ((Runner.Run ⟨skipErrorTask, none, none⟩ fun _ => childWriting "a\r\n" "").trace.filter
          isCommandCall = [.handler 1 "a" 2] ∧
        callsAsClaimed "a\r\n" "" = [.handler 1 "a\r" 2]) := by
  refine ⟨by decide, ⟨?_, ?_⟩, by decide⟩
  · rw [command_calls_of_scans ⟨skipErrorTask, none, none⟩ (fun _ => childWriting longText "")
      (by decide) (by decide) rfl rfl rfl
      (fun s hs => (List.mem_append.mp hs).elim (scanLines_clean _ s) (scanLines_clean _ s))]
    have h1 : (childWriting longText "").stdout = [⟨none, "s1"⟩] := by
      show (scanTexts [] longText.data).map (fun t => (⟨none, t⟩ : Scanned)) = _
      rw [show longText.data = "s1\n".data ++ List.replicate 70000 (Char.ofNat 120) ++
        "\ns3\n".data from rfl, scanTexts_long 70000 (by decide)]
      rfl
    have h2 : (childWriting longText "").stderr = [] := rfl
    simp only [h1, h2]
    decide
  · unfold callsAsClaimed linesWritten
    rw [show longText.data = "s1\n".data ++ List.replicate 70000 (Char.ofNat 120) ++
      "\ns3\n".data from rfl, splitLines_long 70000]
    rfl

/-- C6, amended: in a streaming Run with a non-nil handler whose child was started, wrote the
text `out` to stdout and `err` to stderr, and whose pipes were read with no read error, if
every line written is shorter than 65536 bytes then the handler calls with source COMMAND
are, in this order, one (STDOUT, line, COMMAND) call per stdout line in the order written and
then one (STDERR, line, COMMAND) call per stderr line that is not empty, in the order written,
each line given without its carriage return. -/
theorem streaming_order (runner : Runner) (os : Command → Process) (out err : String)
    (hb : runner.task.realtimeOutput = true)
    (hH : runner.task.realtimeOutputHandler.isSome = true)
    (hOut : (os runner.command).stdoutPipe = none)
    (hErr : (os runner.command).stderrPipe = none)
    (hStart : (os runner.command).start = none)
    (hStdout : (os runner.command).stdout = scanLines out)
    (hStderr : (os runner.command).stderr = scanLines err)
    (hFit : ∀ l ∈ linesWritten out ++ linesWritten err,
      byteLength l.data < MaxScanTokenSize) :
    (runner.Run os).trace.filter isCommandCall =
      (linesWritten out).map (fun l => .handler StandardOutput (withoutCR l) SourceCommand) ++
        ((linesWritten err).filter fun l => withoutCR l != "").map
          (fun l => .handler StandardError (withoutCR l) SourceCommand) := by
  have hClean : ∀ s ∈ (os runner.command).stdout ++ (os runner.command).stderr,
      s.err = none := by
    intro s hs
    rw [hStdout, hStderr] at hs
    exact (List.mem_append.mp hs).elim (scanLines_clean _ s) (scanLines_clean _ s)
  rw [command_calls_of_scans runner os hb hH hOut hErr hStart hClean, hStdout, hStderr,
    scanLines_of_fit out (fun l hl => hFit l (List.mem_append_left _ hl)),
    scanLines_of_fit err (fun l hl => hFit l (List.mem_append_right _ hl))]
  simp only [List.map_map, List.filter_map]
  rfl

theorem streaming_order_witness :
    skipErrorTask.realtimeOutput = true ∧
      skipErrorTask.realtimeOutputHandler.isSome = true ∧
      (∀ l ∈ linesWritten "s1\r\n\ns3\n" ++ linesWritten "e1\n\r\ne2",
        byteLength l.data < MaxScanTokenSize) ∧
      (Runner.Run ⟨skipErrorTask, none, none⟩ fun _ =>
          childWriting "s1\r\n\ns3\n" "e1\n\r\ne2").trace.filter isCommandCall =
        [.handler 1 "s1" 2, .handler 1 "" 2, .handler 1 "s3" 2,
          .handler 2 "e1" 2, .handler 2 "e2" 2] :=
  ⟨by decide, by decide, by decide,
    (streaming_order ⟨skipErrorTask, none, none⟩
      (fun _ => childWriting "s1\r\n\ns3\n" "e1\n\r\ne2") "s1\r\n\ns3\n" "e1\n\r\ne2"
      (by decide) (by decide) rfl rfl rfl rfl rfl (by decide)).trans (by decide)⟩

/-- C7, refuted as worded: on a task whose handler is the nil function, `processScannedLine`
with output type STDOUT and an error-free empty line panics in the handler call; it returns
nothing and no handler call is made. -/
theorem empty_stdout_line_panics_on_nil_handler :
    nilHandlerTask.realtimeOutput = true ∧
      nilHandlerTask.realtimeOutputHandler = none ∧
      (Runner.processScannedLine ⟨nilHandlerTask, none, none⟩ ⟨none, ""⟩ StandardOutput).value =
        none ∧
      (Runner.processScannedLine ⟨nilHandlerTask, none, none⟩ ⟨none, ""⟩ StandardOutput).trace =
        [] := by
  decide

/-- C7, amended: for a scanned line with no scanner error and an empty text,
`processScannedLine` with output type STDERR makes no handler call and returns (true, nil);
with output type STDOUT, on a task whose handler is not nil, it makes exactly the one call
(STDOUT, "", COMMAND) and returns (true, nil). -/
theorem empty_line_rule (runner : Runner) :
    runner.processScannedLine ⟨none, ""⟩ StandardError = ⟨[], some (true, none)⟩ ∧
      (runner.task.realtimeOutputHandler.isSome = true →
        runner.processScannedLine ⟨none, ""⟩ StandardOutput =
          ⟨[.handler StandardOutput "" SourceCommand], some (true, none)⟩) := by
  constructor
  · simp [Runner.processScannedLine, StandardOutput, StandardError, pure_eq_ret, Exec.ret]
  · intro hH
    obtain ⟨h, hh⟩ := Option.isSome_iff_exists.mp hH
    rw [processScannedLine_stdout hh _ rfl]
    rfl

theorem empty_line_rule_witness :
    skipErrorTask.realtimeOutputHandler.isSome = true ∧
      Runner.processScannedLine ⟨skipErrorTask, none, none⟩ ⟨none, ""⟩ StandardOutput =
        ⟨[.handler 1 "" 2], some (true, none)⟩ :=
  ⟨by decide, (empty_line_rule ⟨skipErrorTask, none, none⟩).2 (by decide)⟩

/-! ## Target user -/

theorem runAs_blank_same_user (host : Host) (task : Task) (username : String)
    (hBlank : TrimSpace username = "") (hOk : (task.RunAs host username).err = none) :
    (task.RunAs host username).receiver.runAs = (task.RunAs host username).receiver.runningAs := by
  unfold Task.RunAs at hOk ⊢
  by_cases hc : task.canSudo = true
  · simp only [hc, Bool.not_true, Bool.false_eq_true, if_false] at hOk ⊢
    rcases hg : GetMyUsername host with ⟨name, _ | e⟩
    · simp only [hg] at hOk ⊢
      rcases hp : HasSudoPrivileges host "ccm" with ⟨b, _ | e⟩
      · simp only [hp] at hOk ⊢
        cases b
        · simp at hOk
        · simp [hBlank]
      · simp [hp] at hOk
    · simp [hg] at hOk
  · simp [hc] at hOk

/-- Whatever the host and the task, a target-user switch that succeeds on a blank user name
leaves a task for which `baseCommandBuilder` gives the bare `/bin/bash` -/
theorem runAs_blank_gives_bash (host : Host) (task : Task) (username : String)
    (onError onSuccess : Option Func)
    (hBlank : TrimSpace username = "") (hOk : (task.RunAs host username).err = none) :
    Runner.baseCommandBuilder ⟨(task.RunAs host username).receiver, onError, onSuccess⟩ =
      ("/bin/bash", ["-lc"]) := by
  have h := runAs_blank_same_user host task username hBlank hOk
  simp [Runner.baseCommandBuilder, Task.IsSameUser, h]

/-- C8, the code at the failing input: on a Linux host where `alice` runs the program and `ccm`
is in group `sudo`, `RunAsSudo()` on the task `ls` succeeds, and the command then assembled is
the bare `/bin/bash -lc "ls "`, not a `sudo` invocation. -/
theorem runAsSudo_gives_bare_bash :
    (lsTask.RunAsSudo linuxHost).err = none ∧
      (lsTask.RunAsSudo linuxHost).receiver.runningAs = "alice" ∧
      (lsTask.RunAsSudo linuxHost).receiver.runAs = "alice" ∧
      Runner.baseCommandBuilder ⟨(lsTask.RunAsSudo linuxHost).receiver, none, none⟩ =
        ("/bin/bash", ["-lc"]) ∧
      Runner.command ⟨(lsTask.RunAsSudo linuxHost).receiver, none, none⟩ =
        ⟨"/bin/bash", ["-lc", "ls "]⟩ := by
  decide

/-! ## Configuration steps -/

theorem runAs_keeps_output_mode (host : Host) (task : Task) (username : String) :
    (task.RunAs host username).receiver.realtimeOutput = task.realtimeOutput ∧
      (task.RunAs host username).receiver.realtimeOutputHandler =
        task.realtimeOutputHandler := by
  unfold Task.RunAs
  by_cases hc : task.canSudo = true
  · simp only [hc, Bool.not_true, Bool.false_eq_true, if_false]
    rcases hg : GetMyUsername host with ⟨name, _ | e⟩
    · simp only
      rcases hp : HasSudoPrivileges host "ccm" with ⟨b, _ | e⟩
      · cases b <;> simp
      · simp
    · simp
  · simp [hc]

theorem newTaskFromOptions_buffered (host : Host) (options : TaskOptions) (task : Task)
    (h : NewTaskFromOptions host options = .ok task) : task.realtimeOutput = false := by
  unfold NewTaskFromOptions at h
  by_cases hr : options.RunAs = ""
  · simp [hr] at h
    rw [← h]
  · simp only [bne_iff_ne, ne_eq, hr, not_false_eq_true, if_true] at h
    split at h
    · cases h
    · rename_i t heq
      cases h
      have hk := congrArg (fun r => r.receiver.realtimeOutput) heq
      simp only [(runAs_keeps_output_mode host _ options.RunAs).1] at hk
      exact hk.symm

theorem step_keeps_handlerSet (host : Host) (task : Task) (step : Step)
    (hs : step ≠ .withRealtimeOutput none) (ht : task.handlerSet) :
    (step.apply host task).handlerSet := by
  cases step with
  | withArguments a => exact ht
  | withSkipError => exact ht
  | withRealtimeOutput handler =>
    cases handler with
    | none => exact absurd rfl hs
    | some h => intro _; rfl
  | withWorkingDir d => exact ht
  | runAs u =>
    obtain ⟨a, b⟩ := runAs_keeps_output_mode host task u
    simp only [Step.apply, Task.handlerSet, a, b]
    exact ht
  | runAsSudo =>
    obtain ⟨a, b⟩ := runAs_keeps_output_mode host task ""
    simp only [Step.apply, Task.RunAsSudo, Task.handlerSet, a, b]
    exact ht

theorem configure_keeps_handlerSet (host : Host) (steps : List Step) (task : Task)
    (hs : ∀ s ∈ steps, s ≠ .withRealtimeOutput none) (ht : task.handlerSet) :
    (configure host task steps).handlerSet := by
  induction steps generalizing task with
  | nil => exact ht
  | cons s rest ih =>
    exact ih (s.apply host task) (fun x hx => hs x (List.mem_cons_of_mem _ hx))
      (step_keeps_handlerSet host task s (hs s (List.mem_cons_self _ _)) ht)

/-- C9, refuted as worded: `NewTask("ls").WithRealtimeOutput(nil)` is a reachable task with
`realtimeOutput` true and a nil handler. -/
theorem nil_handler_reachable :
    (configure linuxHost (NewTask linuxHost "ls") [.withRealtimeOutput none]).realtimeOutput =
        true ∧
      (configure linuxHost (NewTask linuxHost "ls")
        [.withRealtimeOutput none]).realtimeOutputHandler = none ∧
      ¬ (configure linuxHost (NewTask linuxHost "ls") [.withRealtimeOutput none]).handlerSet := by
  refine ⟨rfl, rfl, fun h => ?_⟩
  exact absurd (h rfl) (by decide)

/-- C9, amended: every task reached from `NewTask` or `NewTaskFromOptions` by configuration
steps in which each `WithRealtimeOutput` is given a non-nil handler has a non-nil handler
whenever `realtimeOutput` is true. -/
theorem handler_set_of_configured (host : Host) (start : Task) (steps : List Step)
    (hStart : (∃ command, start = NewTask host command) ∨
      ∃ options, NewTaskFromOptions host options = .ok start)
    (hSteps : ∀ s ∈ steps, s ≠ .withRealtimeOutput none) :
    (configure host start steps).realtimeOutput = true →
      (configure host start steps).realtimeOutputHandler.isSome = true := by
  apply configure_keeps_handlerSet host steps start hSteps
  intro h
  rcases hStart with ⟨c, rfl⟩ | ⟨o, ho⟩
  · cases h
  · rw [newTaskFromOptions_buffered host o start ho] at h
    cases h

theorem handler_set_of_configured_witness :
    (configure linuxHost lsTask
        [.withArguments ["-l"], .withRealtimeOutput (some ⟨7⟩), .runAsSudo,
          .withSkipError]).realtimeOutput = true ∧
      (configure linuxHost lsTask
        [.withArguments ["-l"], .withRealtimeOutput (some ⟨7⟩), .runAsSudo,
          .withSkipError]).realtimeOutputHandler.isSome = true :=
  ⟨by decide,
    handler_set_of_configured linuxHost lsTask
      [.withArguments ["-l"], .withRealtimeOutput (some ⟨7⟩), .runAsSudo, .withSkipError]
      (Or.inl ⟨"ls", rfl⟩) (by decide) (by decide)⟩

/-! ## Elevation group membership -/

theorem startsWith_iff (s sub : List Char) :
    startsWith s sub = true ↔ ∃ post, s = sub ++ post := by
  induction sub generalizing s with
  | nil => simp [startsWith]
  | cons d sub ih =>
    cases s with
    | nil => simp [startsWith]
    | cons c s =>
      simp only [startsWith, Bool.and_eq_true, beq_iff_eq, ih, List.cons_append,
        List.cons.injEq]
      constructor
      · rintro ⟨rfl, post, rfl⟩
        exact ⟨post, rfl, rfl⟩
      · rintro ⟨post, rfl, rfl⟩
        exact ⟨rfl, post, rfl⟩

/-- `Contains` is substring search -/
theorem contains_iff (s sub : String) :
    Contains s sub = true ↔ ∃ pre post, s.data = pre ++ sub.data ++ post := by
  unfold Contains
  generalize s.data = l
  generalize sub.data = t
  induction l with
  | nil =>
    simp only [containsChars, startsWith_iff]
    constructor
    · rintro ⟨post, h⟩
      exact ⟨[], post, by simpa using h⟩
    · rintro ⟨pre, post, h⟩
      have h2 := h.symm
      simp only [List.append_eq_nil] at h2
      exact ⟨[], by simp [h2.1.2]⟩
  | cons c l ih =>
    simp only [containsChars, Bool.or_eq_true, startsWith_iff, ih]
    constructor
    · rintro (⟨post, h⟩ | ⟨pre, post, h⟩)
      · exact ⟨[], post, by simpa using h⟩
      · exact ⟨c :: pre, post, by simp [h]⟩
    · rintro ⟨pre, post, h⟩
      cases pre with
      | nil => exact Or.inl ⟨post, by simpa using h⟩
      | cons p pre =>
        simp only [List.cons_append, List.cons.injEq] at h
        exact Or.inr ⟨pre, post, h.2⟩

theorem length_eq_zero_iff (s : String) : (s.length == 0) = true ↔ s = "" := by
  cases s with
  | mk data =>
    simp only [String.length, beq_iff_eq, List.length_eq_zero]
    constructor
    · rintro rfl; rfl
    · intro h; exact congrArg String.data h

theorem lookupGroups_spec (host : Host) (name : String) :
    (lookupGroups host name = (true, none) ↔
        ∃ out, host.groups name = .ok out ∧ Contains (TrimSpace out) "sudo" = true) ∧
      (∀ e, host.groups name = .error e →
        lookupGroups host name = (false, some (errUserNotFound name))) ∧
      (∀ out, host.groups name = .ok out → Contains (TrimSpace out) "sudo" = false →
        lookupGroups host name = (false, some (errNoSudoPrivileges name))) := by
  unfold lookupGroups
  cases hg : host.groups name with
  | error e => simp
  | ok out =>
    by_cases hc : Contains (TrimSpace out) "sudo" = true
    · simp [hc]
    · simp [hc]

/-- C10, refuted as worded: for the user `sudoku`, whose groups are `sudoku` and `users`,
`HasSudoPrivileges` returns (true, nil) although no group of the user is named `sudo`. -/
theorem substring_match_accepts_non_member :
    sudokuHost.groups "sudoku" = .ok "sudoku : sudoku users\n" ∧
      groupNames "sudoku : sudoku users\n" = ["sudoku", "users"] ∧
      ¬ memberOfSudoGroup "sudoku : sudoku users\n" ∧
      HasSudoPrivileges sudokuHost "sudoku" = (true, none) := by
  refine ⟨rfl, by decide, ?_, by decide⟩
  unfold memberOfSudoGroup
  decide

theorem splitFields_infix (l cur : List Char) (f : String) (hf : f ∈ splitFields cur l) :
    ∃ pre post, cur.reverse ++ l = pre ++ f.data ++ post := by
  induction l generalizing cur with
  | nil =>
    by_cases hc : cur = []
    · simp [splitFields, hc] at hf
    · simp only [splitFields, hc, if_false, List.mem_singleton] at hf
      subst hf
      exact ⟨[], [], by simp⟩
  | cons c rest ih =>
    by_cases hsp : isSpace c = true
    · by_cases hc : cur = []
      · simp only [splitFields, hsp, hc, if_true] at hf
        obtain ⟨pre, post, h⟩ := ih [] hf
        refine ⟨c :: pre, post, ?_⟩
        simp only [List.reverse_nil, List.nil_append] at h
        simp [hc, h]
      · simp only [splitFields, hsp, hc, if_true, if_false, List.mem_cons] at hf
        rcases hf with rfl | hf
        · exact ⟨[], c :: rest, by simp⟩
        · obtain ⟨pre, post, h⟩ := ih [] hf
          refine ⟨cur.reverse ++ c :: pre, post, ?_⟩
          simp only [List.reverse_nil, List.nil_append] at h
          simp [h]
    · simp only [splitFields, hsp, Bool.false_eq_true, if_false] at hf
      obtain ⟨pre, post, h⟩ := ih (c :: cur) hf
      exact ⟨pre, post, by simpa using h⟩

theorem splitFields_dropWhile (l : List Char) :
    splitFields [] (l.dropWhile isSpace) = splitFields [] l := by
  induction l with
  | nil => rfl
  | cons c rest ih =>
    by_cases hsp : isSpace c = true
    · simp [List.dropWhile_cons, splitFields, hsp, ih]
    · simp [List.dropWhile_cons, hsp]

theorem splitFields_spaces (sp cur : List Char) (hsp : ∀ c ∈ sp, isSpace c = true) :
    splitFields cur sp = splitFields cur [] := by
  induction sp generalizing cur with
  | nil => rfl
  | cons c rest ih =>
    have hc := hsp c (List.mem_cons_self _ _)
    have hr := ih [] (fun x hx => hsp x (List.mem_cons_of_mem _ hx))
    by_cases hcur : cur = []
    · simp only [splitFields, hc, hcur, if_true, hr]
    · simp only [splitFields, hc, hcur, if_true, if_false, hr]

theorem splitFields_append_spaces (l sp cur : List Char) (hsp : ∀ c ∈ sp, isSpace c = true) :
    splitFields cur (l ++ sp) = splitFields cur l := by
  induction l generalizing cur with
  | nil => simpa using splitFields_spaces sp cur hsp
  | cons c rest ih =>
    have h1 := ih []
    have h2 := ih (c :: cur)
    rw [List.cons_append]
    simp only [splitFields, h1, h2]

/-- Trimming does not change the fields of a text -/
theorem splitFields_trimSpace (s : String) :
    splitFields [] (TrimSpace s).data = splitFields [] s.data := by
  unfold TrimSpace
  simp only
  rw [← splitFields_dropWhile s.data]
  generalize s.data.dropWhile isSpace = d
  have hd : d = (d.reverse.dropWhile isSpace).reverse ++ (d.reverse.takeWhile isSpace).reverse := by
    rw [← List.reverse_append, List.takeWhile_append_dropWhile, List.reverse_reverse]
  have hsp : ∀ c ∈ (d.reverse.takeWhile isSpace).reverse, isSpace c = true := by
    intro c hc
    exact List.mem_takeWhile_imp (List.mem_reverse.mp hc)
  conv_rhs => rw [hd]
  rw [splitFields_append_spaces _ _ _ hsp]

theorem groupNames_subset (output f : String) (hf : f ∈ groupNames output) :
    f ∈ splitFields [] output.data := by
  unfold groupNames at hf
  split at hf
  · rename_i x names heq
    have hm : f ∈ (splitFields [] output.data).dropWhile (fun f => f != ":") := by
      rw [heq]
      exact List.mem_cons_of_mem _ hf
    exact (List.dropWhile_sublist _).subset hm
  · exact hf

/-- A user in a group named exactly `sudo` passes the substring test -/
theorem contains_of_member (output : String) (h : memberOfSudoGroup output) :
    Contains (TrimSpace output) "sudo" = true := by
  have h1 := groupNames_subset output "sudo" h
  rw [← splitFields_trimSpace] at h1
  obtain ⟨pre, post, hp⟩ := splitFields_infix _ _ _ h1
  exact (contains_iff _ _).mpr ⟨pre, post, by simpa using hp⟩

/-- C10, amended: `HasSudoPrivileges` on a blank user name returns the error of `whoami` when
that fails. Otherwise, with `name` the user looked up (the given name, or for a blank name the
trimmed output of `whoami`), it returns (true, nil) if and only if the `groups` lookup
succeeded and its trimmed output contains the substring `sudo`, which is so in particular when
the user is in a group named exactly `sudo`; when the lookup fails it returns the UnknownUser
error, and when the lookup succeeds and the output does not contain `sudo` it returns the
NotPrivileged error. -/
theorem hasSudoPrivileges_spec (host : Host) (username : String) :
    (TrimSpace username = "" → ∀ e, host.whoami = .error e →
        HasSudoPrivileges host username = (false, some e)) ∧
      ∀ name,
        ((TrimSpace username ≠ "" ∧ name = username) ∨
          (TrimSpace username = "" ∧ ∃ raw, host.whoami = .ok raw ∧ name = TrimSpace raw)) →
        (HasSudoPrivileges host username = (true, none) ↔
            ∃ out, host.groups name = .ok out ∧ Contains (TrimSpace out) "sudo" = true) ∧
          (∀ out, host.groups name = .ok out → memberOfSudoGroup out →
            HasSudoPrivileges host username = (true, none)) ∧
          (∀ e, host.groups name = .error e →
            HasSudoPrivileges host username = (false, some (errUserNotFound name))) ∧
          (∀ out, host.groups name = .ok out → Contains (TrimSpace out) "sudo" = false →
            HasSudoPrivileges host username = (false, some (errNoSudoPrivileges name))) := by
  constructor
  · intro he e hw
    have : ((TrimSpace username).length == 0) = true := (length_eq_zero_iff _).mpr he
    simp [HasSudoPrivileges, this, GetMyUsername, hw]
  · intro name hName
    have hl : HasSudoPrivileges host username = lookupGroups host name := by
      unfold HasSudoPrivileges
      rcases hName with ⟨hne, rfl⟩ | ⟨he, raw, hw, rfl⟩
      · have : ¬ ((TrimSpace name).length == 0) = true := fun h =>
          hne ((length_eq_zero_iff _).mp h)
        simp [this]
      · have : ((TrimSpace username).length == 0) = true := (length_eq_zero_iff _).mpr he
        simp [this, GetMyUsername, hw]
    rw [hl]
    obtain ⟨h1, h2, h3⟩ := lookupGroups_spec host name
    exact ⟨h1, fun out ho hm => h1.mpr ⟨out, ho, contains_of_member out hm⟩, h2, h3⟩

theorem hasSudoPrivileges_spec_witness :
    (TrimSpace "ccm" ≠ "" ∧ "ccm" = "ccm") ∧
      linuxHost.groups "ccm" = .ok "ccm : ccm sudo\n" ∧
      memberOfSudoGroup "ccm : ccm sudo\n" ∧
      HasSudoPrivileges linuxHost "ccm" = (true, none) :=
  ⟨⟨by decide, rfl⟩, rfl, by unfold memberOfSudoGroup; decide,
    ((hasSudoPrivileges_spec linuxHost "ccm").2 "ccm" (Or.inl ⟨by decide, rfl⟩)).2.1
      "ccm : ccm sudo\n" rfl (by unfold memberOfSudoGroup; decide)⟩

end GoRunner
